import Mathlib

/-!
# Verification of the OMI grid server and viewport client

Shallow embedding of the core of the "One Million Images" repository:
the SQLite-backed occupancy store and upload pipeline of `src/server.js`,
and the viewport tile cache and fetch scheduler of
`src/originalPublic/app.js`.  Machine integers are modelled as `Int`/`Nat`
(none of the arithmetic here can overflow a JS double), JS strings used as
captions are modelled as `List Char` (JS `slice` on code units becomes
`List.take`), and fallible database/storage calls are modelled with
`Except`/explicit outcome flags.
-/

namespace OMI

/-! ## Grid constants (server.js:119-122) -/

def GRID_W : Int := 1000
def GRID_H : Int := 1000

/-- Helper `clamp` (server.js:183): `(v,a,b) => Math.max(a, Math.min(b, v))`. -/
def clamp (v a b : Int) : Int := max a (min b v)

/-! ## The occupancy store

One row of the `slots` table (server.js:124-137).  The `caption` column is
a JS string, modelled as its list of code units. -/

structure Slot where
  x : Int
  y : Int
  caption : List Char
  createdAt : Int
  ip : String
  thumbKey : String
  origKey : String
  deriving Repr, DecidableEq

/-- Occupancy probe `SELECT 1 FROM slots WHERE x=? AND y=?` used by the upload pre-check
(server.js:318) and by `pickRandomEmptySlot` (server.js:186). -/
def occupied (db : List Slot) (x y : Int) : Bool :=
  db.any fun s => s.x == x && s.y == y

/-- Row insert `INSERT INTO slots ...` (server.js:349-352).  The table carries the
unique indexes `idx_slots_xy` on `(x,y)` and `created_at_idx` on
`created_at` (server.js:135-136), so the insert fails (SQLITE_CONSTRAINT)
exactly when an existing row shares the cell or the timestamp; on failure
the table is unchanged. -/
def insertSlot (db : List Slot) (s : Slot) : Except Unit (List Slot) :=
  if db.any fun t => (t.x == s.x && t.y == s.y) || t.createdAt == s.createdAt
  then .error ()
  else .ok (db ++ [s])

/-- States of the `slots` table reachable from the empty table by insert
attempts (a failed insert leaves the table unchanged, so only successful
inserts produce new states). -/
inductive ReachableDb : List Slot → Prop
  | empty : ReachableDb []
  | insert (db s db') : ReachableDb db → insertSlot db s = .ok db' → ReachableDb db'

/-- Rows of the store occupying the cell `(x,y)`: the single-cell query
branch of `fetchSlots` (server.js:220-224), `WHERE x = ? AND y = ?`. -/
def queryCell (db : List Slot) (x y : Int) : List Slot :=
  db.filter fun s => s.x == x && s.y == y

/-! ## Query path (server.js:195-233, 369-386) -/

/-- Wrapper `safeDbQuery` (server.js:195-203): a storage fault is caught and
degraded to the empty list; the caller never sees an exception. -/
def safeDbQuery (q : Except Unit (List Slot)) : List Slot :=
  match q with
  | .ok rows => rows
  | .error _ => []

/-- Range filter `WHERE x BETWEEN ? AND ? AND y BETWEEN ? AND ?` (server.js:214-218):
SQL `BETWEEN lo AND hi` is `lo ≤ v AND v ≤ hi`. -/
def queryRect (db : List Slot) (x0 x1 y0 y1 : Int) : List Slot :=
  db.filter fun s => decide (x0 ≤ s.x) && decide (s.x ≤ x1)
    && decide (y0 ≤ s.y) && decide (s.y ≤ y1)

/-- Relation ordering slots by `created_at`, as in
`ORDER BY created_at ASC` (server.js:211). -/
def byCreatedAt : Slot → Slot → Prop := fun a b => a.createdAt ≤ b.createdAt

instance : DecidableRel byCreatedAt := fun a b => inferInstanceAs (Decidable (_ ≤ _))
instance : IsTotal Slot byCreatedAt := ⟨fun a b => Int.le_total a.createdAt b.createdAt⟩
instance : IsTrans Slot byCreatedAt := ⟨fun _ _ _ h h' => Int.le_trans h h'⟩

/-- Feed query `SELECT ... ORDER BY created_at ASC LIMIT ?` (server.js:209-212) with a
well-typed (integer) limit `n`: the rows sorted ascending by `created_at`,
truncated to the first `n`. -/
def queryFeed (db : List Slot) (n : Int) : List Slot :=
  (db.insertionSort byCreatedAt).take n.toNat

/-- The rectangle branch of `fetchSlots` (server.js:205-226) over a
possibly-faulted store (`.error` = the underlying SQLite call threw). -/
def fetchSlotsRect (dbq : Except Unit (List Slot)) (x0 y0 x1 y1 : Int) : List Slot :=
  safeDbQuery (dbq.map fun db => queryRect db x0 x1 y0 y1)

/-- The single-cell branch of `fetchSlots` over a possibly-faulted store. -/
def fetchSlotsCell (dbq : Except Unit (List Slot)) (x0 y0 : Int) : List Slot :=
  safeDbQuery (dbq.map fun db => queryCell db x0 y0)

/-- The limit branch of `fetchSlots` over a possibly-faulted store, for a
well-typed integer limit. -/
def fetchSlotsFeed (dbq : Except Unit (List Slot)) (n : Int) : List Slot :=
  safeDbQuery (dbq.map fun db => queryFeed db n)

/-- GET /api/feed (server.js:383-386) with a numeric `limit` parameter:
`clamp(parseInt(limit ?? 50), 1, 200)`, then the limit branch of
`fetchSlots`.  `res.json` answers with HTTP status 200. -/
def apiFeed (dbq : Except Unit (List Slot)) (limit : Int) : Nat × List Slot :=
  (200, fetchSlotsFeed dbq (clamp limit 1 200))

/-! ## Slot allocator (server.js:185-193) -/

/-- The loop body of `pickRandomEmptySlot`: `draws i` is the i-th pair
`(Math.floor(Math.random()*W), Math.floor(Math.random()*H))`, `i` the
index of the next draw, `fuel` the remaining tries. -/
def pickLoop (db : List Slot) (draws : Nat → Int × Int) : Nat → Nat → Option (Int × Int)
  | _, 0 => none
  | i, fuel + 1 =>
    let p := draws i
    if occupied db p.1 p.2 then pickLoop db draws (i + 1) fuel else some p

/-- Allocator `pickRandomEmptySlot(db, W, H, tries = 8000)` (server.js:185-193): up
to 8000 random draws, returning the first that hits an unoccupied cell,
`none` when the budget is exhausted. -/
def pickRandomEmptySlot (db : List Slot) (draws : Nat → Int × Int) : Option (Int × Int) :=
  pickLoop db draws 0 8000

/-! ## Asset storage and the upload pipeline (server.js:160-178, 278-367)

The R2 bucket is modelled as the list of keys it holds; whether a given
`putToR2`/`DeleteObjectCommand` call succeeds is an explicit outcome flag
of the run. -/

structure R2Fx where
  origPutOk : Bool
  thumbPutOk : Bool
  origDelOk : Bool
  thumbDelOk : Bool
  deriving Repr, DecidableEq

/-- Helper `deleteFromR2` (server.js:173-178): the delete is attempted and any
failure is swallowed by the empty `catch`, so a failed delete leaves the
bucket (and the caller's control flow) unchanged. -/
def deleteFromR2 (bucket : List String) (key : String) (delOk : Bool) : List String :=
  if delOk then bucket.filter (· ≠ key) else bucket

/-- Outcome of one POST /api/upload request, as observed by the caller. -/
inductive UploadResult
  /-- Status 200 with `{ok:true, slot:{x,y,caption,createdAt,...}}` (server.js:354-357) -/
  | ok (x y : Int) (caption : List Char) (createdAt : Int)
  /-- Status 409 `Slot already taken` (server.js:319) -/
  | slotTaken
  /-- Status 503 `No free slots found` (server.js:322) -/
  | noFreeSlot
  /-- Status 500 `Upload failed` (server.js:359-364) -/
  | uploadFailed
  deriving Repr, DecidableEq

/-- Caption handling `(caption ?? '').toString().slice(0, 120)` (server.js:347): JS `slice`
on code units is `List.take` on the caption's character list. -/
def safeCaption (caption : Option (List Char)) : List Char :=
  (caption.getD []).take 120

/-- The asset-write + row-commit stage of the upload handler
(server.js:330-364), entered after a cell `(gx, gy)` has been chosen.

* `Promise.all` of the two `putToR2` calls (337-340): each put that
  succeeds writes its key; if either fails the `catch` (341-345) runs
  `deleteFromR2` on both keys (each delete best-effort) and rethrows, so
  the outer handler answers 500 and no row is inserted.
* otherwise the row is inserted (349-352); a constraint violation from
  the unique indexes throws to the outer `catch` (359-364), which answers
  500 — without deleting the already-written assets. -/
def commitStage (dbIns : List Slot) (bucket : List String) (gx gy : Int)
    (caption : Option (List Char)) (createdAt : Int)
    (ip thumbKey origKey : String) (fx : R2Fx) :
    UploadResult × List Slot × List String :=
  let b1 := if fx.origPutOk then bucket ++ [origKey] else bucket
  let b2 := if fx.thumbPutOk then b1 ++ [thumbKey] else b1
  if fx.origPutOk && fx.thumbPutOk then
    let sc := safeCaption caption
    match insertSlot dbIns ⟨gx, gy, sc, createdAt, ip, thumbKey, origKey⟩ with
    | .ok db' => (.ok gx gy sc createdAt, db', b2)
    | .error _ => (.uploadFailed, dbIns, b2)
  else
    let b3 := deleteFromR2 b2 origKey fx.origDelOk
    let b4 := deleteFromR2 b3 thumbKey fx.thumbDelOk
    (.uploadFailed, dbIns, b4)

/-- The targeted-cell path of POST /api/upload (server.js:313-357):
coordinates clamped into the grid (316-317), occupancy pre-checked with a
separate SELECT (318-319), then the asset/commit stage.  `dbPre` is the
table as seen by the pre-check and `dbIns` the table as seen by the
INSERT; an interleaved writer in the `await` window between them makes
the two differ. -/
def uploadTargeted (dbPre dbIns : List Slot) (bucket : List String) (x y : Int)
    (caption : Option (List Char)) (createdAt : Int)
    (ip thumbKey origKey : String) (fx : R2Fx) :
    UploadResult × List Slot × List String :=
  let gx := clamp x 0 (GRID_W - 1)
  let gy := clamp y 0 (GRID_H - 1)
  if occupied dbPre gx gy then (.slotTaken, dbIns, bucket)
  else commitStage dbIns bucket gx gy caption createdAt ip thumbKey origKey fx

/-- The random-cell path of POST /api/upload (server.js:320-324 then
330-357): `pickRandomEmptySlot` against the table as seen at allocation
time; `null` answers 503 without touching storage. -/
def uploadRandom (dbPre dbIns : List Slot) (bucket : List String)
    (draws : Nat → Int × Int) (caption : Option (List Char)) (createdAt : Int)
    (ip thumbKey origKey : String) (fx : R2Fx) :
    UploadResult × List Slot × List String :=
  match pickRandomEmptySlot dbPre draws with
  | none => (.noFreeSlot, dbIns, bucket)
  | some p => commitStage dbIns bucket p.1 p.2 caption createdAt ip thumbKey origKey fx

/-! ## Query endpoints with raw (possibly non-numeric) parameters

`parseInt(param)` yields a JS number that is either an integer or `NaN`;
modelled as `Option Int` with `none` for `NaN`.  `Math.min`/`Math.max`
propagate `NaN`, so `clamp` does too.  When such a value is bound into a
prepared statement, better-sqlite3 binds it as a double and SQLite stores
a `NaN` double as `NULL`:

* a `BETWEEN`/`=` comparison against `NULL` is `NULL`, so the row set is
  empty (no error);
* a `LIMIT` bound to `NULL` raises `SQLITE_MISMATCH` ("datatype
  mismatch") inside the query call, which `safeDbQuery` catches and turns
  into `[]`. -/

/-- A JS number that is an integer or `NaN` (`none`). -/
abbrev JSNum := Option Int

/-- Helper `clamp` (server.js:183) on a JS number: NaN in, NaN out. -/
def clampJS (v : JSNum) (a b : Int) : JSNum := v.map fun n => clamp n a b

/-- Comparison `x BETWEEN lo AND hi` where `lo`/`hi` were bound from JS numbers: a
`NULL` (NaN) bound compares to `NULL`, excluding every row. -/
def betweenJS (lo hi : JSNum) (v : Int) : Bool :=
  match lo, hi with
  | some l, some h => decide (l ≤ v) && decide (v ≤ h)
  | _, _ => false

/-- The minimal row projection of /api/grid (server.js:228-230):
`{x, y, thumbUrl}`.  URL formation from the key (`r2Url`, server.js:149)
is environment-prefix + encode and is injective in the key; the handle is
modelled by the key itself. -/
structure MinimalRow where
  x : Int
  y : Int
  thumbUrl : String
  deriving Repr, DecidableEq

/-- GET /api/grid (server.js:375-381) with raw parsed query parameters
(`none` = a present but non-numeric parameter; an absent parameter is
`some default` via `?? 0` / `?? GRID_W-1` before `parseInt`).  Status of
`res.json` is 200. -/
def apiGrid (dbq : Except Unit (List Slot)) (x0 y0 x1 y1 : JSNum) : Nat × List MinimalRow :=
  let cx0 := clampJS x0 0 (GRID_W - 1)
  let cy0 := clampJS y0 0 (GRID_H - 1)
  let cx1 := clampJS x1 0 (GRID_W - 1)
  let cy1 := clampJS y1 0 (GRID_H - 1)
  let rows := safeDbQuery (dbq.map fun db =>
    db.filter fun s => betweenJS cx0 cx1 s.x && betweenJS cy0 cy1 s.y)
  (200, rows.map fun s => ⟨s.x, s.y, s.thumbKey⟩)

/-- GET /api/feed (server.js:383-386) with a raw parsed `limit` parameter:
a NaN limit is bound as `NULL`, and `LIMIT NULL` raises SQLITE_MISMATCH,
which `safeDbQuery` degrades to `[]`. -/
def apiFeedJS (dbq : Except Unit (List Slot)) (limit : JSNum) : Nat × List Slot :=
  let lim := clampJS limit 1 200
  (200, safeDbQuery (do
    let db ← dbq
    match lim with
    | none => .error ()
    | some n => .ok (queryFeed db n)))

/-! ## Viewport fetch scheduler backoff (app.js:712-721, 744-787) -/

def BASE_DELAY_MS : Nat := 120
def MAX_BACKOFF_MS : Nat := 5000

/-- The 429 branch of `fetchViewport` (app.js:748):
`rateBackoffMs = Math.min(MAX_BACKOFF_MS, Math.max(250, rateBackoffMs * 2 || 250))`
(`0 * 2 || 250` evaluates to 250, kept faithfully). -/
def nextBackoff (b : Nat) : Nat :=
  min MAX_BACKOFF_MS (max 250 (if 2 * b = 0 then 250 else 2 * b))

/-- How one completed `fetchViewport` run ended. -/
inductive FetchOutcome
  /-- Status 2xx with parseable JSON: both success paths set `rateBackoffMs = 0`
  (app.js:775, 783). -/
  | success
  /-- Status 429: backoff grows (app.js:746-751). -/
  | rateLimited
  /-- other non-OK status: `scheduleFetch(300)`, backoff untouched (753-756). -/
  | httpError
  /-- invalid JSON: `scheduleFetch(300)`, backoff untouched (762-767). -/
  | parseError
  /-- thrown fetch/network error: `scheduleFetch(500)`, backoff untouched (786-787). -/
  | networkError

/-- Effect of one `fetchViewport` completion on `rateBackoffMs`. -/
def stepBackoff : FetchOutcome → Nat → Nat
  | .success, _ => 0
  | .rateLimited, b => nextBackoff b
  | .httpError, b => b
  | .parseError, b => b
  | .networkError, b => b

/-- Values of `rateBackoffMs` reachable from the initial `0` (app.js:714)
under completed fetches. -/
inductive BackoffReachable : Nat → Prop
  | init : BackoffReachable 0
  | step (o b) : BackoffReachable b → BackoffReachable (stepBackoff o b)

/-- Scheduler `scheduleFetch` (app.js:717-721): the delay of the timer it arms. -/
def scheduleFetchDelay (b extraDelay : Nat) : Nat := BASE_DELAY_MS + b + extraDelay

/-! ## Viewport tile cache (app.js:254-340) -/

def MAX_ENTRIES : Nat := 5000

/-- One cache entry (app.js:263-269); only `lastUsed` matters to
eviction, the rest is the load-state the entry carries. -/
structure CacheEntry where
  thumbUrl : String
  fullUrl : Option String
  thumbReady : Bool
  fullReady : Bool
  loadingFull : Bool
  lastUsed : Nat
  deriving Repr, DecidableEq

/-- The cache map: JS `Map` keyed by `"x,y"`, modelled as an association
list keyed by the cell with pairwise-distinct keys. -/
abbrev CacheMap := List ((Int × Int) × CacheEntry)

/-- Membership of a cell in the keep-set built by the nested loops of
`evictIfNeeded` (app.js:320-327): the viewport rectangle padded by 2 and
clipped to the grid. -/
def inKeep (rect : Int × Int × Int × Int) (k : Int × Int) : Bool :=
  let (vx0, vy0, vx1, vy1) := rect
  decide (max 0 (vx0 - 2) ≤ k.1) && decide (k.1 ≤ min (GRID_W - 1) (vx1 + 2))
    && decide (max 0 (vy0 - 2) ≤ k.2) && decide (k.2 ≤ min (GRID_H - 1) (vy1 + 2))

/-- Ordering of cache entries used by `arr.sort((a,b) => a[1]-b[1])`
(app.js:333): ascending `lastUsed`. -/
def byLastUsed : (Int × Int) × CacheEntry → (Int × Int) × CacheEntry → Prop :=
  fun a b => a.2.lastUsed ≤ b.2.lastUsed

instance : DecidableRel byLastUsed := fun a b => inferInstanceAs (Decidable (_ ≤ _))
instance : IsTotal ((Int × Int) × CacheEntry) byLastUsed :=
  ⟨fun a b => Nat.le_total a.2.lastUsed b.2.lastUsed⟩
instance : IsTrans ((Int × Int) × CacheEntry) byLastUsed :=
  ⟨fun _ _ _ h h' => Nat.le_trans h h'⟩

/-- Eviction candidates (app.js:329-332): the entries of the map whose
key is not in the keep-set (`if (!keep.has(k)) arr.push(...)`). -/
def evictCandidates (m : CacheMap) (rect : Int × Int × Int × Int) : CacheMap :=
  m.filter fun kv => !(inKeep rect kv.1)

/-- Candidates sorted by ascending `lastUsed`:
`arr.sort((a, b) => a[1] - b[1])` (app.js:333). -/
def evictSorted (m : CacheMap) (rect : Int × Int × Int × Int) : CacheMap :=
  (evictCandidates m rect).insertionSort byLastUsed

/-- Entries chosen for removal:
`toRemove = arr.slice(0, Math.max(0, map.size - MAX_ENTRIES))`
(app.js:335); `List.take` already clips a negative surplus to zero. -/
def evictRemoved (m : CacheMap) (rect : Int × Int × Int × Int) : CacheMap :=
  (evictSorted m rect).take (m.length - MAX_ENTRIES)

/-- Eviction pass `Cache.evictIfNeeded(viewRect)` (app.js:316-336): no-op
at or under the cap; otherwise the removal set is deleted from the map
by key (`for (const [k] of toRemove) map.delete(k)`). -/
def evictIfNeeded (m : CacheMap) (rect : Int × Int × Int × Int) : CacheMap :=
  if m.length ≤ MAX_ENTRIES then m
  else m.filter fun kv => !((evictRemoved m rect).any fun r => r.1 == kv.1)

/-! ## Shared helper lemmas -/

theorem insertSlot_ok {db : List Slot} {s : Slot} {db'} (h : insertSlot db s = .ok db') :
    (∀ t ∈ db, ¬(t.x = s.x ∧ t.y = s.y) ∧ t.createdAt ≠ s.createdAt) ∧ db' = db ++ [s] := by
  unfold insertSlot at h
  split at h
  · exact absurd h (by simp)
  · refine ⟨?_, by simpa using h.symm⟩
    intro t ht
    have hfalse : ¬ (db.any fun t => (t.x == s.x && t.y == s.y) || t.createdAt == s.createdAt)
        = true := ‹_›
    rw [List.any_eq_true] at hfalse
    push_neg at hfalse
    have hf := hfalse t ht
    constructor
    · rintro ⟨hx, hy⟩; exact hf (by simp [hx, hy])
    · intro hc; exact hf (by simp [hc])

theorem insertSlot_error_of_mem {db : List Slot} {s t : Slot}
    (ht : t ∈ db) (hx : t.x = s.x) (hy : t.y = s.y) : insertSlot db s = .error () := by
  unfold insertSlot
  rw [if_pos]
  exact List.any_eq_true.mpr ⟨t, ht, by simp [hx, hy]⟩

/-! ## C1 -/

/-- **C1.** For every reachable state of the occupancy store, each grid
cell holds at most one Placement (the single-cell query reports at most
one row for any cell), and when two inserts target the same cell the
second is rejected by the unique index `idx_slots_xy`, so at most one of
two placement attempts on the same cell succeeds. -/
theorem occupancy_store_at_most_one_per_cell (db : List Slot) (h : ReachableDb db) :
    (∀ x y : Int, (queryCell db x y).length ≤ 1) ∧
    (∀ (s₁ s₂ : Slot) (db' : List Slot), s₂.x = s₁.x → s₂.y = s₁.y →
      insertSlot db s₁ = .ok db' → insertSlot db' s₂ = .error ()) := by
  constructor
  · induction h with
    | empty => intro x y; simp [queryCell]
    | insert db s db' _ hok ih =>
      intro x y
      obtain ⟨hguard, rfl⟩ := insertSlot_ok hok
      rw [queryCell, List.filter_append, List.length_append]
      by_cases hs : s.x = x ∧ s.y = y
      · have hnil : db.filter (fun t => t.x == x && t.y == y) = [] := by
          rw [List.filter_eq_nil_iff]
          intro t ht
          simp only [Bool.and_eq_true, beq_iff_eq, not_and]
          intro hx hy
          exact absurd ⟨hx.trans hs.1.symm, hy.trans hs.2.symm⟩ (hguard t ht).1
        rw [hnil]
        simp only [List.length_nil, Nat.zero_add]
        calc (List.filter (fun t => t.x == x && t.y == y) [s]).length
            ≤ [s].length := List.length_filter_le _ _
          _ = 1 := rfl
      · have hnil : [s].filter (fun t => t.x == x && t.y == y) = [] := by
          rw [List.filter_eq_nil_iff]
          intro t ht
          simp only [List.mem_singleton] at ht
          subst ht
          simp only [Bool.and_eq_true, beq_iff_eq, not_and]
          intro hx hy
          exact hs ⟨hx, hy⟩
        rw [hnil]
        simp only [List.length_nil, Nat.add_zero]
        exact ih x y
  · intro s₁ s₂ db' hx hy hok
    obtain ⟨_, rfl⟩ := insertSlot_ok hok
    exact insertSlot_error_of_mem (t := s₁) (by simp) hx.symm hy.symm

/-- Witness for C1 at the empty (reachable) store. -/
theorem occupancy_store_at_most_one_per_cell_witness :
    ReachableDb [] ∧
    ((∀ x y : Int, (queryCell [] x y).length ≤ 1) ∧
     (∀ (s₁ s₂ : Slot) (db' : List Slot), s₂.x = s₁.x → s₂.y = s₁.y →
       insertSlot [] s₁ = .ok db' → insertSlot db' s₂ = .error ())) :=
  ⟨ReachableDb.empty, occupancy_store_at_most_one_per_cell [] ReachableDb.empty⟩

/-! ## C2 -/

/-- A sample placement occupying cell `(7,13)`. -/
def demoSlot : Slot := ⟨7, 13, [], 1, "ip0", "thumb0", "orig0"⟩

/-- An effect environment in which every storage call succeeds. -/
def allOk : R2Fx := ⟨true, true, true, true⟩

theorem occupied_eq_true_iff {db : List Slot} {x y : Int} :
    occupied db x y = true ↔ ∃ t ∈ db, t.x = x ∧ t.y = y := by
  simp [occupied]

theorem insertSlot_ok_of {db : List Slot} {s : Slot}
    (hcell : occupied db s.x s.y = false)
    (hts : ∀ t ∈ db, t.createdAt ≠ s.createdAt) :
    insertSlot db s = .ok (db ++ [s]) := by
  have hany : (db.any fun t => (t.x == s.x && t.y == s.y) || t.createdAt == s.createdAt)
      = false := by
    rw [List.any_eq_false]
    intro t ht
    simp only [Bool.or_eq_true, Bool.and_eq_true, beq_iff_eq, not_or, not_and]
    constructor
    · intro hx hy
      have : occupied db s.x s.y = true := occupied_eq_true_iff.mpr ⟨t, ht, hx, hy⟩
      rw [this] at hcell
      exact absurd hcell (by simp)
    · exact hts t ht
  simp [insertSlot, hany]

theorem insertSlot_error_of_occupied {db : List Slot} {s : Slot}
    (h : occupied db s.x s.y = true) : insertSlot db s = .error () := by
  obtain ⟨t, ht, hx, hy⟩ := occupied_eq_true_iff.mp h
  exact insertSlot_error_of_mem ht hx hy

/-- Counterexample to C2 as stated: the uniqueness decision is *not*
deferred to the store's atomic insert.  With cell `(7,13)` free at the
time of the SELECT pre-check but occupied by the time of the INSERT, the
unique index rejects the row, yet the caller is answered with the generic
500 `Upload failed`, not the 409 `Slot already taken` conflict — so the
slot-taken decision is made by the separate pre-check, and the atomic
insert only surfaces as a generic failure. -/
theorem targeted_upload_decision_is_precheck_counterexample :
    occupied [demoSlot] 7 13 = true ∧
    (uploadTargeted [] [demoSlot] [] 7 13 none 5 "ip" "thumb" "orig" allOk).1
      = .uploadFailed ∧
    UploadResult.uploadFailed ≠ UploadResult.slotTaken := by
  refine ⟨by decide, ?_, by decide⟩
  decide

/-- C2 (amended): the coordinates of a targeted upload are clamped into
`[0,999]×[0,999]`; if the clamped cell is occupied the upload is
rejected as slot-taken with no mutation to the occupancy store or the
bucket — but that decision is made by a separate SELECT pre-check, not
by the atomic insert: a cell that becomes occupied between the pre-check
and the INSERT is rejected by the unique index and reported as a generic
upload failure (with no row committed), while a cell free at both points
commits exactly the clamped cell. -/
theorem targeted_upload_clamped_precheck (dbPre dbIns : List Slot) (bucket : List String)
    (x y : Int) (caption : Option (List Char)) (createdAt : Int) (ip tk ok : String) :
    (0 ≤ clamp x 0 (GRID_W - 1) ∧ clamp x 0 (GRID_W - 1) ≤ 999 ∧
     0 ≤ clamp y 0 (GRID_H - 1) ∧ clamp y 0 (GRID_H - 1) ≤ 999) ∧
    (occupied dbPre (clamp x 0 (GRID_W - 1)) (clamp y 0 (GRID_H - 1)) = true →
      uploadTargeted dbPre dbIns bucket x y caption createdAt ip tk ok allOk
        = (.slotTaken, dbIns, bucket)) ∧
    (occupied dbPre (clamp x 0 (GRID_W - 1)) (clamp y 0 (GRID_H - 1)) = false →
     occupied dbIns (clamp x 0 (GRID_W - 1)) (clamp y 0 (GRID_H - 1)) = true →
      (uploadTargeted dbPre dbIns bucket x y caption createdAt ip tk ok allOk).1
          = .uploadFailed ∧
      (uploadTargeted dbPre dbIns bucket x y caption createdAt ip tk ok allOk).2.1
          = dbIns) ∧
    (occupied dbPre (clamp x 0 (GRID_W - 1)) (clamp y 0 (GRID_H - 1)) = false →
     occupied dbIns (clamp x 0 (GRID_W - 1)) (clamp y 0 (GRID_H - 1)) = false →
     (∀ t ∈ dbIns, t.createdAt ≠ createdAt) →
      uploadTargeted dbPre dbIns bucket x y caption createdAt ip tk ok allOk
        = (.ok (clamp x 0 (GRID_W - 1)) (clamp y 0 (GRID_H - 1))
            (safeCaption caption) createdAt,
           dbIns ++ [⟨clamp x 0 (GRID_W - 1), clamp y 0 (GRID_H - 1),
             safeCaption caption, createdAt, ip, tk, ok⟩],
           bucket ++ [ok] ++ [tk])) := by
  refine ⟨?_, ?_, ?_, ?_⟩
  · refine ⟨le_max_left _ _, ?_, le_max_left _ _, ?_⟩
    · exact max_le (by norm_num [GRID_W]) (le_trans (min_le_left _ _) (by norm_num [GRID_W]))
    · exact max_le (by norm_num [GRID_H]) (le_trans (min_le_left _ _) (by norm_num [GRID_H]))
  · intro hocc
    simp [uploadTargeted, hocc]
  · intro hpre hins
    have herr : insertSlot dbIns ⟨clamp x 0 (GRID_W - 1), clamp y 0 (GRID_H - 1),
        safeCaption caption, createdAt, ip, tk, ok⟩ = .error () :=
      insertSlot_error_of_occupied hins
    constructor <;> simp [uploadTargeted, commitStage, hpre, allOk, herr]
  · intro hpre hins hfresh
    have hok : insertSlot dbIns ⟨clamp x 0 (GRID_W - 1), clamp y 0 (GRID_H - 1),
        safeCaption caption, createdAt, ip, tk, ok⟩
        = .ok (dbIns ++ [⟨clamp x 0 (GRID_W - 1), clamp y 0 (GRID_H - 1),
            safeCaption caption, createdAt, ip, tk, ok⟩]) :=
      insertSlot_ok_of hins hfresh
    simp [uploadTargeted, commitStage, hpre, allOk, hok]

/-- Witness for C2 (amended): a targeted upload of cell `(7,13)` against
an occupied store is rejected as slot-taken with no mutation. -/
theorem targeted_upload_clamped_precheck_witness :
    occupied [demoSlot] (clamp 7 0 (GRID_W - 1)) (clamp 13 0 (GRID_H - 1)) = true ∧
    uploadTargeted [demoSlot] [demoSlot] [] 7 13 none 5 "ip" "thumb" "orig" allOk
      = (.slotTaken, [demoSlot], []) :=
  ⟨by decide,
   (targeted_upload_clamped_precheck [demoSlot] [demoSlot] [] 7 13 none 5
     "ip" "thumb" "orig").2.1 (by decide)⟩

/-! ## C3 -/

/-- Sample placements with increasing creation timestamps. -/
def feedSlotA : Slot := ⟨1, 1, [], 1, "ipA", "tA", "oA"⟩

/-- Sample placement newer than `feedSlotA`. -/
def feedSlotB : Slot := ⟨2, 2, [], 2, "ipB", "tB", "oB"⟩

/-- Sample placement newer than `feedSlotB`. -/
def feedSlotC : Slot := ⟨3, 3, [], 3, "ipC", "tC", "oC"⟩

/-- Counterexample to C3 as stated: the feed does not return the most
recent `n` placements.  On a store holding placements with `createdAt`
1, 2 and 3, the feed with limit 2 (`ORDER BY created_at ASC LIMIT 2`)
returns the two *oldest* rows; the most recent placement (`createdAt` 3)
is absent, and every returned row is strictly older than it. -/
theorem feed_returns_oldest_counterexample :
    apiFeed (.ok [feedSlotC, feedSlotB, feedSlotA]) 2 = (200, [feedSlotA, feedSlotB]) ∧
    feedSlotC ∈ [feedSlotC, feedSlotB, feedSlotA] ∧
    feedSlotC ∉ [feedSlotA, feedSlotB] ∧
    (∀ s ∈ [feedSlotA, feedSlotB], s.createdAt < feedSlotC.createdAt) := by
  refine ⟨by decide, by decide, by decide, by decide⟩

/-- C3 (amended): `queryRecent(n)` (the recency feed) clamps the
requested limit into `[1,200]` and returns the *oldest* placements: the
first `clamp n 1 200` rows of the store in ascending `createdAt` order.
The result is non-decreasing in `createdAt`, holds at most 200 rows, all
drawn from the store, and every returned row is no newer than any stored
row that was left out. -/
theorem feed_ascending_oldest (db : List Slot) (n : Int) :
    (1 ≤ clamp n 1 200 ∧ clamp n 1 200 ≤ 200) ∧
    List.Sorted byCreatedAt (apiFeed (.ok db) n).2 ∧
    (apiFeed (.ok db) n).2.length ≤ 200 ∧
    (∀ s ∈ (apiFeed (.ok db) n).2, s ∈ db) ∧
    (∀ s ∈ (apiFeed (.ok db) n).2, ∀ t ∈ db, t ∉ (apiFeed (.ok db) n).2 →
      s.createdAt ≤ t.createdAt) := by
  have hclamp : 1 ≤ clamp n 1 200 ∧ clamp n 1 200 ≤ 200 :=
    ⟨le_max_left _ _, max_le (by norm_num) (min_le_left _ _)⟩
  have hres : (apiFeed (.ok db) n).2
      = (db.insertionSort byCreatedAt).take (clamp n 1 200).toNat := rfl
  set arr := db.insertionSort byCreatedAt with harr
  set k := (clamp n 1 200).toNat with hk
  have hsorted : List.Sorted byCreatedAt arr := List.sorted_insertionSort byCreatedAt db
  have hmemarr : ∀ {t : Slot}, t ∈ arr ↔ t ∈ db :=
    fun {t} => (List.perm_insertionSort byCreatedAt db).mem_iff
  have hpair : ∀ a ∈ arr.take k, ∀ b ∈ arr.drop k, byCreatedAt a b := by
    have hp : List.Pairwise byCreatedAt (arr.take k ++ arr.drop k) := by
      rw [List.take_append_drop]; exact hsorted
    exact (List.pairwise_append.mp hp).2.2
  refine ⟨hclamp, ?_, ?_, ?_, ?_⟩
  · rw [hres]
    exact List.Pairwise.sublist (List.take_sublist k arr) hsorted
  · rw [hres]
    calc (arr.take k).length ≤ k := List.length_take_le k arr
      _ ≤ 200 := Int.toNat_le.mpr hclamp.2
  · intro s hs
    rw [hres] at hs
    exact hmemarr.mp (List.mem_of_mem_take hs)
  · intro s hs t ht htn
    rw [hres] at hs htn
    have htarr : t ∈ arr := hmemarr.mpr ht
    rw [← List.take_append_drop k arr, List.mem_append] at htarr
    rcases htarr with h | h
    · exact absurd h htn
    · exact hpair s hs t h

/-- Witness for C3 (amended) on a two-row store with limit 1: the single
returned row is in the store and is no newer than the omitted row. -/
theorem feed_ascending_oldest_witness :
    feedSlotA ∈ [feedSlotB, feedSlotA] ∧ feedSlotA.createdAt ≤ feedSlotB.createdAt :=
  ⟨(feed_ascending_oldest [feedSlotB, feedSlotA] 1).2.2.2.1 feedSlotA (by decide),
   (feed_ascending_oldest [feedSlotB, feedSlotA] 1).2.2.2.2 feedSlotA (by decide)
     feedSlotB (by decide) (by decide)⟩

/-! ## C4 -/

/-- HTTP status code of an upload outcome
(server.js:319, 322, 357, 364). -/
def statusCode : UploadResult → Nat
  | .ok _ _ _ _ => 200
  | .slotTaken => 409
  | .noFreeSlot => 503
  | .uploadFailed => 500

/-- Counterexample to C4 as stated: an upload whose caption has 121
characters is *not* rejected — it succeeds, committing the caption
truncated to 120 characters. -/
theorem long_caption_not_rejected_counterexample :
    (List.replicate 121 'a').length = 121 ∧
    (uploadTargeted [] [] [] 7 13 (some (List.replicate 121 'a')) 5
        "ip" "thumb" "orig" allOk).1
      = .ok 7 13 (List.replicate 120 'a') 5 := by
  refine ⟨by simp, by decide⟩

/-- C4 (amended): an over-long caption never causes a rejection: the
acceptance status of an upload does not depend on the caption at all;
the caption is truncated to its first 120 characters before commit, so
every row an upload adds to the store has a caption of length at most
120. -/
theorem caption_truncated_not_rejected (dbPre dbIns : List Slot) (bucket : List String)
    (x y : Int) (c : List Char) (createdAt : Int) (ip tk ok : String) (fx : R2Fx) :
    safeCaption (some c) = c.take 120 ∧
    (safeCaption (some c)).length ≤ 120 ∧
    statusCode (uploadTargeted dbPre dbIns bucket x y (some c) createdAt ip tk ok fx).1
      = statusCode (uploadTargeted dbPre dbIns bucket x y none createdAt ip tk ok fx).1 ∧
    (∀ s ∈ (uploadTargeted dbPre dbIns bucket x y (some c) createdAt ip tk ok fx).2.1,
      s ∈ dbIns ∨ s.caption.length ≤ 120) := by
  have hlen : (safeCaption (some c)).length ≤ 120 := by
    simp [safeCaption]
  refine ⟨rfl, hlen, ?_, ?_⟩
  · unfold uploadTargeted commitStage
    cases hpre : occupied dbPre (clamp x 0 (GRID_W - 1)) (clamp y 0 (GRID_H - 1)) with
    | true => simp [hpre]
    | false =>
      cases hput : fx.origPutOk && fx.thumbPutOk with
      | false => simp [hpre, hput]
      | true =>
        simp only [hpre, Bool.false_eq_true, if_false, hput, if_true]
        unfold insertSlot
        cases hguard : dbIns.any fun t =>
            (t.x == clamp x 0 (GRID_W - 1) && t.y == clamp y 0 (GRID_H - 1))
              || t.createdAt == createdAt with
        | true => simp [hpre, hput, hguard, statusCode]
        | false => simp [hpre, hput, hguard, statusCode]
  · intro s hs
    unfold uploadTargeted commitStage at hs
    by_cases hpre : occupied dbPre (clamp x 0 (GRID_W - 1)) (clamp y 0 (GRID_H - 1)) = true
    · simp only [hpre, if_true] at hs
      exact Or.inl hs
    · simp only [Bool.not_eq_true] at hpre
      simp only [hpre, Bool.false_eq_true, if_false] at hs
      cases hput : fx.origPutOk && fx.thumbPutOk with
      | false => simp only [hput, Bool.false_eq_true, if_false] at hs; exact Or.inl hs
      | true =>
        simp only [hput, if_true] at hs
        unfold insertSlot at hs
        cases hguard : dbIns.any fun t =>
            (t.x == clamp x 0 (GRID_W - 1) && t.y == clamp y 0 (GRID_H - 1))
              || t.createdAt == createdAt with
        | true => simp only [hguard, if_true] at hs; exact Or.inl hs
        | false =>
          simp only [hguard, Bool.false_eq_true, if_false, List.mem_append,
            List.mem_singleton] at hs
          rcases hs with hs | hs
          · exact Or.inl hs
          · subst hs
            exact Or.inr hlen

/-- Witness for C4 (amended): the row committed by a 121-character-caption
upload onto the empty store has caption length at most 120. -/
theorem caption_truncated_not_rejected_witness :
    (⟨7, 13, List.replicate 120 'a', 5, "ip", "tk", "ok"⟩ : Slot)
        ∈ (uploadTargeted [] [] [] 7 13 (some (List.replicate 121 'a')) 5
            "ip" "tk" "ok" allOk).2.1 ∧
    ((⟨7, 13, List.replicate 120 'a', 5, "ip", "tk", "ok"⟩ : Slot) ∈ ([] : List Slot) ∨
      (List.replicate 120 'a').length ≤ 120) :=
  ⟨by decide,
   caption_truncated_not_rejected [] [] [] 7 13 (List.replicate 121 'a') 5
     "ip" "tk" "ok" allOk |>.2.2.2 _ (by decide)⟩

/-! ## C5 -/

theorem pickLoop_none (db : List Slot) (draws : Nat → Int × Int) :
    ∀ (fuel i : Nat),
      (∀ j < fuel, occupied db (draws (i + j)).1 (draws (i + j)).2 = true) →
      pickLoop db draws i fuel = none := by
  intro fuel
  induction fuel with
  | zero => intro i _; rfl
  | succ fuel ih =>
    intro i h
    have h0 : occupied db (draws i).1 (draws i).2 = true := by
      simpa using h 0 (by omega)
    simp only [pickLoop, h0, if_true]
    apply ih
    intro j hj
    have h' := h (j + 1) (by omega)
    have heq : i + (j + 1) = (i + 1) + j := by omega
    rwa [heq] at h'

theorem pickLoop_some (db : List Slot) (draws : Nat → Int × Int) :
    ∀ (fuel i : Nat) (p : Int × Int), pickLoop db draws i fuel = some p →
      occupied db p.1 p.2 = false ∧
      ∃ j < fuel, draws (i + j) = p ∧
        ∀ j' < j, occupied db (draws (i + j')).1 (draws (i + j')).2 = true := by
  intro fuel
  induction fuel with
  | zero => intro i p h; exact absurd h (by simp [pickLoop])
  | succ fuel ih =>
    intro i p h
    by_cases h0 : occupied db (draws i).1 (draws i).2 = true
    · simp only [pickLoop, h0, if_true] at h
      obtain ⟨hocc, j, hj, hdraw, hall⟩ := ih (i + 1) p h
      refine ⟨hocc, j + 1, by omega, ?_, ?_⟩
      · have heq : i + (j + 1) = (i + 1) + j := by omega
        rw [heq]; exact hdraw
      · intro j' hj'
        cases j' with
        | zero => simpa using h0
        | succ j'' =>
          have heq : i + (j'' + 1) = (i + 1) + j'' := by omega
          rw [heq]
          exact hall j'' (by omega)
    · rw [Bool.not_eq_true] at h0
      simp only [pickLoop, h0, Bool.false_eq_true, if_false] at h
      obtain rfl : draws i = p := Option.some_inj.mp h
      exact ⟨h0, 0, by omega, by simp, fun j' hj' => absurd hj' (Nat.not_lt_zero j')⟩

theorem pickLoop_congr (db : List Slot) (draws draws' : Nat → Int × Int) :
    ∀ (fuel i : Nat), (∀ j < fuel, draws (i + j) = draws' (i + j)) →
      pickLoop db draws i fuel = pickLoop db draws' i fuel := by
  intro fuel
  induction fuel with
  | zero => intro i _; rfl
  | succ fuel ih =>
    intro i h
    have h0 : draws i = draws' i := by simpa using h 0 (by omega)
    simp only [pickLoop, h0]
    by_cases hc : occupied db (draws' i).1 (draws' i).2 = true
    · simp only [hc, if_true]
      apply ih
      intro j hj
      have h' := h (j + 1) (by omega)
      have heq : i + (j + 1) = (i + 1) + j := by omega
      rwa [heq] at h'
    · rw [Bool.not_eq_true] at hc
      simp [hc]

/-- C5: randomized slot allocation (`pickRandomEmptySlot`) consults at
most the first 8000 draws of the random stream; it returns the first
drawn cell that is unoccupied, and if all 8000 draws hit occupied cells
it terminates with `none`, which the upload handler reports as the 503
no-free-slot outcome (no unbounded looping even on a full grid). -/
theorem random_allocation_bounded (db : List Slot) (draws draws' : Nat → Int × Int) :
    ((∀ j < 8000, occupied db (draws j).1 (draws j).2 = true) →
      pickRandomEmptySlot db draws = none ∧
      ∀ (dbIns : List Slot) (bucket : List String) (caption : Option (List Char))
        (createdAt : Int) (ip tk ok : String) (fx : R2Fx),
        uploadRandom db dbIns bucket draws caption createdAt ip tk ok fx
          = (.noFreeSlot, dbIns, bucket)) ∧
    (∀ p, pickRandomEmptySlot db draws = some p →
      occupied db p.1 p.2 = false ∧
      ∃ j < 8000, draws j = p ∧
        ∀ j' < j, occupied db (draws j').1 (draws j').2 = true) ∧
    ((∀ j < 8000, draws j = draws' j) →
      pickRandomEmptySlot db draws = pickRandomEmptySlot db draws') := by
  refine ⟨?_, ?_, ?_⟩
  · intro h
    have hnone : pickRandomEmptySlot db draws = none := by
      apply pickLoop_none db draws 8000 0
      intro j hj
      simpa using h j hj
    refine ⟨hnone, ?_⟩
    intro dbIns bucket caption createdAt ip tk ok fx
    simp [uploadRandom, hnone]
  · intro p hp
    have := pickLoop_some db draws 8000 0 p hp
    simpa using this
  · intro h
    apply pickLoop_congr db draws draws' 8000 0
    intro j hj
    simpa using h j hj

/-- A draw stream stuck on the cell `(7,13)`. -/
def stuckDraws : Nat → Int × Int := fun _ => (7, 13)

/-- Witness for C5: on a store occupying `(7,13)` with a draw stream
stuck on `(7,13)` allocation reports no free slot; on the empty store
the first draw is returned and found unoccupied. -/
theorem random_allocation_bounded_witness :
    ((∀ j < 8000, occupied [demoSlot] (stuckDraws j).1 (stuckDraws j).2 = true) ∧
      pickRandomEmptySlot [demoSlot] stuckDraws = none) ∧
    (pickRandomEmptySlot [] stuckDraws = some (7, 13) ∧
      occupied [] (7 : Int) (13 : Int) = false) := by
  have hstuck : ∀ j < 8000, occupied [demoSlot] (stuckDraws j).1 (stuckDraws j).2 = true :=
    fun _ _ => (by decide : occupied [demoSlot] (7 : Int) (13 : Int) = true)
  constructor
  · exact ⟨hstuck, ((random_allocation_bounded [demoSlot] stuckDraws stuckDraws).1 hstuck).1⟩
  · exact ⟨rfl, ((random_allocation_bounded [] stuckDraws stuckDraws).2.1 (7, 13) rfl).1⟩

/-! ## C6 -/

/-- Counterexample to C6 as stated: when both asset writes succeed and
the occupancy-row commit then fails, the committed row is indeed absent
and the caller is told the upload failed — but the already-written
assets are *not* deleted: both keys remain in the bucket (the rollback
deletes only wrap the two put calls, server.js:341-345; the insert
failure lands in the outer catch, server.js:359-364, which does not
delete). -/
theorem commit_failure_assets_not_deleted_counterexample :
    (commitStage [demoSlot] [] 7 13 none 5 "ip" "thumb" "orig" allOk).1
      = .uploadFailed ∧
    (commitStage [demoSlot] [] 7 13 none 5 "ip" "thumb" "orig" allOk).2.1
      = [demoSlot] ∧
    (commitStage [demoSlot] [] 7 13 none 5 "ip" "thumb" "orig" allOk).2.2
      = ["orig", "thumb"] := by
  refine ⟨by decide, by decide, by decide⟩

/-- C6 (amended): if either asset-storage write fails, the already
written assets are best-effort deleted (and a failed delete is
swallowed: the caller is told the upload failed regardless of whether
the deletes succeed), no occupancy row is committed, and the caller is
told the upload failed.  If instead the occupancy-row commit fails, no
row is committed and the caller is told the upload failed, but the
already-written assets are NOT deleted: both keys remain in the
bucket. -/
theorem upload_rollback_semantics (dbIns : List Slot) (bucket : List String)
    (gx gy : Int) (caption : Option (List Char)) (createdAt : Int)
    (ip tk ok : String) (fx : R2Fx) :
    ((fx.origPutOk && fx.thumbPutOk) = false →
      (commitStage dbIns bucket gx gy caption createdAt ip tk ok fx).1 = .uploadFailed ∧
      (commitStage dbIns bucket gx gy caption createdAt ip tk ok fx).2.1 = dbIns ∧
      (fx.origDelOk = true → fx.thumbDelOk = true →
        ok ∉ (commitStage dbIns bucket gx gy caption createdAt ip tk ok fx).2.2 ∧
        tk ∉ (commitStage dbIns bucket gx gy caption createdAt ip tk ok fx).2.2)) ∧
    ((fx.origPutOk && fx.thumbPutOk) = true →
      insertSlot dbIns ⟨gx, gy, safeCaption caption, createdAt, ip, tk, ok⟩ = .error () →
      (commitStage dbIns bucket gx gy caption createdAt ip tk ok fx).1 = .uploadFailed ∧
      (commitStage dbIns bucket gx gy caption createdAt ip tk ok fx).2.1 = dbIns ∧
      ok ∈ (commitStage dbIns bucket gx gy caption createdAt ip tk ok fx).2.2 ∧
      tk ∈ (commitStage dbIns bucket gx gy caption createdAt ip tk ok fx).2.2) := by
  constructor
  · intro hput
    refine ⟨by simp [commitStage, hput], by simp [commitStage, hput], ?_⟩
    intro hdo hdt
    have hres : (commitStage dbIns bucket gx gy caption createdAt ip tk ok fx).2.2
        = ((if fx.thumbPutOk then
              (if fx.origPutOk then bucket ++ [ok] else bucket) ++ [tk]
            else if fx.origPutOk then bucket ++ [ok] else bucket).filter
              (· ≠ ok)).filter (· ≠ tk) := by
      simp [commitStage, hput, deleteFromR2, hdo, hdt]
    rw [hres]
    constructor
    · intro hmem
      have := (List.mem_filter.mp hmem).1
      have := (List.mem_filter.mp this).2
      simp at this
    · intro hmem
      have := (List.mem_filter.mp hmem).2
      simp at this
  · intro hput herr
    refine ⟨by simp [commitStage, hput, herr], by simp [commitStage, hput, herr], ?_, ?_⟩
    · have hb : (commitStage dbIns bucket gx gy caption createdAt ip tk ok fx).2.2
          = (bucket ++ [ok]) ++ [tk] := by
        rw [Bool.and_eq_true] at hput
        simp [commitStage, hput.1, hput.2, herr]
      rw [hb]
      simp
    · have hb : (commitStage dbIns bucket gx gy caption createdAt ip tk ok fx).2.2
          = (bucket ++ [ok]) ++ [tk] := by
        rw [Bool.and_eq_true] at hput
        simp [commitStage, hput.1, hput.2, herr]
      rw [hb]
      simp

/-- Witness for C6 (amended): a failed thumbnail write rolls both keys
back out of the bucket; a failed row commit leaves both keys in it. -/
theorem upload_rollback_semantics_witness :
    ((commitStage [] [] 7 13 none 5 "ip" "thumb" "orig"
        ⟨true, false, true, true⟩).1 = .uploadFailed ∧
      (commitStage [] [] 7 13 none 5 "ip" "thumb" "orig"
        ⟨true, false, true, true⟩).2.1 = [] ∧
      ("orig" ∉ (commitStage [] [] 7 13 none 5 "ip" "thumb" "orig"
        ⟨true, false, true, true⟩).2.2 ∧
       "thumb" ∉ (commitStage [] [] 7 13 none 5 "ip" "thumb" "orig"
        ⟨true, false, true, true⟩).2.2)) ∧
    ((commitStage [demoSlot] [] 7 13 none 5 "ip" "thumb" "orig" allOk).1
        = .uploadFailed ∧
      (commitStage [demoSlot] [] 7 13 none 5 "ip" "thumb" "orig" allOk).2.1
        = [demoSlot] ∧
      "orig" ∈ (commitStage [demoSlot] [] 7 13 none 5 "ip" "thumb" "orig" allOk).2.2 ∧
      "thumb" ∈ (commitStage [demoSlot] [] 7 13 none 5 "ip" "thumb" "orig" allOk).2.2) := by
  constructor
  · have h := (upload_rollback_semantics [] [] 7 13 none 5 "ip" "thumb" "orig"
      ⟨true, false, true, true⟩).1 (by decide)
    exact ⟨h.1, h.2.1, h.2.2 rfl rfl⟩
  · exact (upload_rollback_semantics [demoSlot] [] 7 13 none 5 "ip" "thumb" "orig"
      allOk).2 (by decide) rfl

/-! ## C7 -/

/-- C7: every query shape (single cell, rectangle, recency feed)
degrades an underlying storage fault to the empty result list — the
endpoints are total functions into lists, so no error is ever raised to
the caller — and a rectangle given with reversed bounds (in either
coordinate) yields the empty result rather than an error. -/
theorem query_fault_degrades_empty :
    (∀ x0 y0 x1 y1 : Int, fetchSlotsRect (.error ()) x0 y0 x1 y1 = []) ∧
    (∀ x y : Int, fetchSlotsCell (.error ()) x y = []) ∧
    (∀ n : Int, apiFeed (.error ()) n = (200, [])) ∧
    (∀ (db : List Slot) (x0 y0 x1 y1 : Int), x0 > x1 →
      fetchSlotsRect (.ok db) x0 y0 x1 y1 = []) ∧
    (∀ (db : List Slot) (x0 y0 x1 y1 : Int), y0 > y1 →
      fetchSlotsRect (.ok db) x0 y0 x1 y1 = []) := by
  refine ⟨fun _ _ _ _ => rfl, fun _ _ => rfl, fun _ => rfl, ?_, ?_⟩
  · intro db x0 y0 x1 y1 hrev
    show queryRect db x0 x1 y0 y1 = []
    rw [queryRect, List.filter_eq_nil_iff]
    intro s _
    simp only [Bool.and_eq_true, decide_eq_true_eq, not_and]
    rintro ⟨⟨h1, h2⟩, _⟩ _
    omega
  · intro db x0 y0 x1 y1 hrev
    show queryRect db x0 x1 y0 y1 = []
    rw [queryRect, List.filter_eq_nil_iff]
    intro s _
    simp only [Bool.and_eq_true, decide_eq_true_eq, not_and]
    rintro ⟨_, h3⟩ h4
    omega

/-- Witness for C7 on the reversed-bounds conjuncts: the rectangle
`x0=5 > x1=3` (and `y0=5 > y1=3`) over a nonempty store is empty. -/
theorem query_fault_degrades_empty_witness :
    ((5 : Int) > 3 ∧ fetchSlotsRect (.ok [demoSlot]) 5 0 3 999 = []) ∧
    ((5 : Int) > 3 ∧ fetchSlotsRect (.ok [demoSlot]) 0 5 999 3 = []) :=
  ⟨⟨by norm_num, query_fault_degrades_empty.2.2.2.1 [demoSlot] 5 0 3 999 (by norm_num)⟩,
   ⟨by norm_num, query_fault_degrades_empty.2.2.2.2 [demoSlot] 0 5 999 3 (by norm_num)⟩⟩

/-! ## C8 -/

theorem backoff_reachable_le {b : Nat} (h : BackoffReachable b) : b ≤ MAX_BACKOFF_MS := by
  induction h with
  | init => simp [MAX_BACKOFF_MS]
  | step o b _ ih =>
    cases o with
    | success => simp [stepBackoff, MAX_BACKOFF_MS]
    | rateLimited => simp [stepBackoff, nextBackoff]
    | httpError => exact ih
    | parseError => exact ih
    | networkError => exact ih

/-- C8: from any reachable backoff state, a rate-limit (429) response
never decreases the scheduled backoff: the new value is at least the old
one, at least 250 ms and at most 5000 ms; and a successful fetch resets
the backoff to zero. -/
theorem backoff_monotone_bounded (b : Nat) (h : BackoffReachable b) :
    b ≤ stepBackoff .rateLimited b ∧
    250 ≤ stepBackoff .rateLimited b ∧
    stepBackoff .rateLimited b ≤ MAX_BACKOFF_MS ∧
    stepBackoff .success b = 0 := by
  have hle : b ≤ MAX_BACKOFF_MS := backoff_reachable_le h
  have hX : b ≤ (if 2 * b = 0 then 250 else 2 * b) := by
    by_cases h0 : 2 * b = 0
    · simp only [h0, reduceIte]; omega
    · simp only [h0, if_false]; omega
  refine ⟨?_, ?_, ?_, rfl⟩
  · show b ≤ min MAX_BACKOFF_MS (max 250 (if 2 * b = 0 then 250 else 2 * b))
    exact le_min hle (le_trans hX (le_max_right _ _))
  · show 250 ≤ min MAX_BACKOFF_MS (max 250 (if 2 * b = 0 then 250 else 2 * b))
    exact le_min (by norm_num [MAX_BACKOFF_MS]) (le_max_left _ _)
  · show min MAX_BACKOFF_MS (max 250 (if 2 * b = 0 then 250 else 2 * b)) ≤ MAX_BACKOFF_MS
    exact min_le_left _ _

/-- Witness for C8 at the initial backoff state 0. -/
theorem backoff_monotone_bounded_witness :
    BackoffReachable 0 ∧
    (0 ≤ stepBackoff .rateLimited 0 ∧
     250 ≤ stepBackoff .rateLimited 0 ∧
     stepBackoff .rateLimited 0 ≤ MAX_BACKOFF_MS ∧
     stepBackoff .success 0 = 0) :=
  ⟨BackoffReachable.init, backoff_monotone_bounded 0 BackoffReachable.init⟩

/-! ## C9 -/

theorem evictRemoved_mem_candidates {m : CacheMap} {rect : Int × Int × Int × Int}
    {r : (Int × Int) × CacheEntry} (hr : r ∈ evictRemoved m rect) :
    r ∈ m ∧ inKeep rect r.1 = false := by
  have harr : r ∈ evictSorted m rect := List.mem_of_mem_take hr
  have hout : r ∈ evictCandidates m rect :=
    (List.perm_insertionSort byLastUsed (evictCandidates m rect)).mem_iff.mp harr
  have hsp := List.mem_filter.mp hout
  exact ⟨hsp.1, by simpa using hsp.2⟩

theorem length_filter_split {α : Type} (l : List α) (p : α → Bool) :
    l.length = (l.filter p).length + (l.filter fun a => !(p a)).length := by
  induction l with
  | nil => rfl
  | cons a t ih =>
    cases hp : p a with
    | true => simp [List.filter_cons, hp, ih]; omega
    | false => simp [List.filter_cons, hp, ih]; omega

/-- C9: after an eviction pass on a cache over the 5000-entry cap (keys
pairwise distinct, as in the JS `Map`), every entry whose cell lies in
the 2-cell-margin-expanded viewport keep-set is still present; every
evicted entry lay outside the keep-set; eviction is least-recently-used
first (each evicted entry is no newer than every surviving outside-keep
entry); and whenever enough entries lie outside the keep-set the cache
is brought back to at most the cap. -/
theorem evict_keepset_safety (m : CacheMap) (rect : Int × Int × Int × Int)
    (hlen : MAX_ENTRIES < m.length) (hnd : (m.map Prod.fst).Nodup) :
    (∀ kv ∈ m, inKeep rect kv.1 = true → kv ∈ evictIfNeeded m rect) ∧
    (∀ kv ∈ m, kv ∉ evictIfNeeded m rect → inKeep rect kv.1 = false) ∧
    (∀ kv ∈ m, kv ∉ evictIfNeeded m rect →
      ∀ kv' ∈ evictIfNeeded m rect, inKeep rect kv'.1 = false →
        kv.2.lastUsed ≤ kv'.2.lastUsed) ∧
    (m.length - MAX_ENTRIES ≤ (evictCandidates m rect).length →
      (evictIfNeeded m rect).length ≤ MAX_ENTRIES) := by
  have hgt : ¬ m.length ≤ MAX_ENTRIES := by omega
  have hev : evictIfNeeded m rect
      = m.filter fun kv => !((evictRemoved m rect).any fun r => r.1 == kv.1) := by
    rw [evictIfNeeded, if_neg hgt]
  have hkeep : ∀ kv ∈ m, inKeep rect kv.1 = true → kv ∈ evictIfNeeded m rect := by
    intro kv hkv hin
    rw [hev]
    refine List.mem_filter.mpr ⟨hkv, ?_⟩
    have hany : ((evictRemoved m rect).any fun r => r.1 == kv.1) = false := by
      rw [List.any_eq_false]
      intro r hr hbeq
      rw [beq_iff_eq] at hbeq
      have hne := (evictRemoved_mem_candidates hr).2
      rw [hbeq, hin] at hne
      exact absurd hne (by simp)
    simp [hany]
  have honly : ∀ kv ∈ m, kv ∉ evictIfNeeded m rect → inKeep rect kv.1 = false := by
    intro kv hkv hnotin
    cases hi : inKeep rect kv.1 with
    | false => rfl
    | true => exact absurd (hkeep kv hkv hi) hnotin
  have hremove_mem : ∀ kv ∈ m, kv ∉ evictIfNeeded m rect → kv ∈ evictRemoved m rect := by
    intro kv hkv hnotin
    rw [hev] at hnotin
    have hany : ((evictRemoved m rect).any fun r => r.1 == kv.1) = true := by
      cases hb : (evictRemoved m rect).any fun r => r.1 == kv.1 with
      | true => rfl
      | false =>
        exact absurd (List.mem_filter.mpr ⟨hkv, by simp [hb]⟩) hnotin
    obtain ⟨r, hr, hbeq⟩ := List.any_eq_true.mp hany
    rw [beq_iff_eq] at hbeq
    have hrm : r ∈ m := (evictRemoved_mem_candidates hr).1
    have hreq : r = kv := List.inj_on_of_nodup_map hnd hrm hkv hbeq
    exact hreq ▸ hr
  have hsurv : ∀ kv' ∈ evictIfNeeded m rect, kv' ∉ evictRemoved m rect := by
    intro kv' hkv' hin_rem
    rw [hev] at hkv'
    have hp := (List.mem_filter.mp hkv').2
    have hany : ((evictRemoved m rect).any fun r => r.1 == kv'.1) = true :=
      List.any_eq_true.mpr ⟨kv', hin_rem, by simp⟩
    rw [hany] at hp
    exact absurd hp (by simp)
  refine ⟨hkeep, honly, ?_, ?_⟩
  · intro kv hkv hnotin kv' hkv' hout
    have hkv_rem : kv ∈ evictRemoved m rect := hremove_mem kv hkv hnotin
    have hkv'_m : kv' ∈ m := by
      rw [hev] at hkv'
      exact (List.mem_filter.mp hkv').1
    have hkv'_out : kv' ∈ evictCandidates m rect :=
      List.mem_filter.mpr ⟨hkv'_m, by simp [hout]⟩
    have hkv'_arr : kv' ∈ evictSorted m rect :=
      (List.perm_insertionSort byLastUsed _).mem_iff.mpr hkv'_out
    have hkv'_nrem : kv' ∉ evictRemoved m rect := hsurv kv' hkv'
    have hkv'_drop : kv' ∈ (evictSorted m rect).drop (m.length - MAX_ENTRIES) := by
      have hm := hkv'_arr
      rw [← List.take_append_drop (m.length - MAX_ENTRIES) (evictSorted m rect),
        List.mem_append] at hm
      rcases hm with hm | hm
      · exact absurd hm hkv'_nrem
      · exact hm
    have hsorted : List.Pairwise byLastUsed (evictSorted m rect) :=
      List.sorted_insertionSort byLastUsed _
    have hpair : ∀ a ∈ (evictSorted m rect).take (m.length - MAX_ENTRIES),
        ∀ b ∈ (evictSorted m rect).drop (m.length - MAX_ENTRIES), byLastUsed a b := by
      have hp : List.Pairwise byLastUsed
          ((evictSorted m rect).take (m.length - MAX_ENTRIES) ++
            (evictSorted m rect).drop (m.length - MAX_ENTRIES)) := by
        rw [List.take_append_drop]
        exact hsorted
      exact (List.pairwise_append.mp hp).2.2
    exact hpair kv hkv_rem kv' hkv'_drop
  · intro hc
    have hm_nodup : m.Nodup := List.Nodup.of_map _ hnd
    have hout_nodup : (evictCandidates m rect).Nodup :=
      hm_nodup.sublist (List.filter_sublist _)
    have harr_nodup : (evictSorted m rect).Nodup :=
      ((List.perm_insertionSort byLastUsed _).nodup_iff).mpr hout_nodup
    have hrem_nodup : (evictRemoved m rect).Nodup :=
      harr_nodup.sublist (List.take_sublist _ _)
    have harr_len : (evictSorted m rect).length = (evictCandidates m rect).length :=
      (List.perm_insertionSort byLastUsed _).length_eq
    have hrem_len : (evictRemoved m rect).length = m.length - MAX_ENTRIES := by
      rw [evictRemoved, List.length_take, harr_len]
      omega
    have hsubset : evictRemoved m rect ⊆ m.filter fun kv =>
        !(!((evictRemoved m rect).any fun r => r.1 == kv.1)) := by
      intro r hr
      refine List.mem_filter.mpr ⟨(evictRemoved_mem_candidates hr).1, ?_⟩
      have hany : ((evictRemoved m rect).any fun r' => r'.1 == r.1) = true :=
        List.any_eq_true.mpr ⟨r, hr, by simp⟩
      simp [hany]
    have hsp := (List.subperm_of_subset hrem_nodup hsubset).length_le
    have hsplit := length_filter_split m
      fun kv => !((evictRemoved m rect).any fun r => r.1 == kv.1)
    rw [hev]
    omega

/-- A cache of 5001 entries on distinct cells `(i, 0)`. -/
def bigCache : CacheMap :=
  (List.range (MAX_ENTRIES + 1)).map fun (i : Nat) =>
    (((i : Int), (0 : Int)), (⟨"t", none, false, false, false, i⟩ : CacheEntry))

theorem bigCache_keys_nodup : (bigCache.map Prod.fst).Nodup := by
  have hmap : bigCache.map Prod.fst
      = (List.range (MAX_ENTRIES + 1)).map fun (i : Nat) => ((i : Int), (0 : Int)) := by
    rw [bigCache, List.map_map]
    rfl
  rw [hmap]
  refine List.Nodup.map ?_ (List.nodup_range _)
  intro a b hab
  have h1 : (a : Int) = (b : Int) := congrArg Prod.fst hab
  exact_mod_cast h1

/-- Witness for C9 on a concrete 5001-entry cache and the full-grid
viewport rectangle. -/
theorem evict_keepset_safety_witness :
    MAX_ENTRIES < bigCache.length ∧ (bigCache.map Prod.fst).Nodup ∧
    ((∀ kv ∈ bigCache, inKeep (0, 0, 999, 999) kv.1 = true →
        kv ∈ evictIfNeeded bigCache (0, 0, 999, 999)) ∧
      (∀ kv ∈ bigCache, kv ∉ evictIfNeeded bigCache (0, 0, 999, 999) →
        inKeep (0, 0, 999, 999) kv.1 = false) ∧
      (∀ kv ∈ bigCache, kv ∉ evictIfNeeded bigCache (0, 0, 999, 999) →
        ∀ kv' ∈ evictIfNeeded bigCache (0, 0, 999, 999),
          inKeep (0, 0, 999, 999) kv'.1 = false →
          kv.2.lastUsed ≤ kv'.2.lastUsed) ∧
      (bigCache.length - MAX_ENTRIES ≤ (evictCandidates bigCache (0, 0, 999, 999)).length →
        (evictIfNeeded bigCache (0, 0, 999, 999)).length ≤ MAX_ENTRIES)) :=
  ⟨by simp [bigCache, MAX_ENTRIES], bigCache_keys_nodup,
    evict_keepset_safety bigCache (0, 0, 999, 999)
      (by simp [bigCache, MAX_ENTRIES]) bigCache_keys_nodup⟩

/-! ## C10 -/

/-- C10: a rectangle (/api/grid) request in which any present coordinate
parameter is non-numeric (`parseInt` yields NaN, `clamp` propagates it,
the bound becomes SQL `NULL` and the `BETWEEN` matches no row) answers
HTTP 200 with an empty row list, for every store state — and likewise a
feed request with a non-numeric limit (`LIMIT NULL` raises
SQLITE_MISMATCH inside the query, which `safeDbQuery` degrades to the
empty list).  Neither endpoint falls back to the documented defaults: on
a sample one-row store, the default-bounds grid query and the default
feed limit do return the stored row. -/
theorem nan_params_empty_success (dbq : Except Unit (List Slot)) (x0 y0 x1 y1 : JSNum) :
    ((x0 = none ∨ y0 = none ∨ x1 = none ∨ y1 = none) →
      apiGrid dbq x0 y0 x1 y1 = (200, [])) ∧
    apiFeedJS dbq none = (200, []) ∧
    apiGrid (.ok [demoSlot]) (some 0) (some 0) (some 999) (some 999)
      = (200, [⟨7, 13, "thumb0"⟩]) ∧
    apiFeedJS (.ok [demoSlot]) (some 50) = (200, [demoSlot]) := by
  refine ⟨?_, ?_, by decide, by decide⟩
  · intro h
    cases dbq with
    | error e =>
      rcases h with rfl | rfl | rfl | rfl <;> simp [apiGrid, safeDbQuery, Except.map]
    | ok db =>
      rcases h with rfl | rfl | rfl | rfl <;>
        simp [apiGrid, safeDbQuery, clampJS, betweenJS, Except.map]
  · cases dbq with
    | error e => rfl
    | ok db => rfl

/-- Witness for C10: a grid request whose `y0` is non-numeric against a
nonempty store answers 200 with no rows. -/
theorem nan_params_empty_success_witness :
    ((some 0 : JSNum) = none ∨ (none : JSNum) = none ∨
      (some 999 : JSNum) = none ∨ (some 999 : JSNum) = none) ∧
    apiGrid (.ok [demoSlot]) (some 0) none (some 999) (some 999) = (200, []) :=
  ⟨Or.inr (Or.inl rfl),
   (nan_params_empty_success (.ok [demoSlot]) (some 0) none (some 999)
     (some 999)).1 (Or.inr (Or.inl rfl))⟩

end OMI
